import Mathlib

/-!
Shallow embedding of cpu.py, an LS-8 style byte-machine emulator, together
with theorems checking its specification.

Modelling conventions:
- Python unbounded integers are Lean Int.  Machine memory is a total map
  Fin 256 into Int and the register file a total map Fin 8 into Int, matching
  the Python lists of fixed length 256 and 8 whose cells may hold any int.
- Python list indexing accepts indices in the interval from minus the length
  up to length minus one (negative indices count from the end) and raises
  IndexError otherwise; pyIdx encodes exactly that rule.
- Python integer operators: the percent operator with a positive modulus
  returns a value in [0, modulus), matching Int.emod; the right-shift
  operator floors, matching Int.fdiv by a power of two; the left-shift
  operator multiplies by a power of two.
- Fallible code (list indexing, dict lookup, raise) is modelled with
  Except PyError.  An uncaught exception aborts the run, so error results
  carry no machine state.
- The instance attributes operand_a and operand_b are initialised to None
  and assigned on every fetch; they are modelled as Option Int, and any use
  of a still-unset operand surfaces as a typeError (in Python such a use
  raises TypeError; no execution path reaches an instruction body before
  the first fetch has filled both slots).
- The diagnostic registers MAR and MDR are kept (ram_read and ram_write set
  them in the source); they witness which address was last read.
-/

set_option maxHeartbeats 1000000
set_option maxRecDepth 100000

namespace LS8

/-- Python runtime failures that cpu.py can raise: IndexError from list
indexing, TypeError from using None where an int is required, KeyError from
a failed dict lookup (the unrecognized-opcode path in run), and the
explicit raise Exception("Unsupported ALU operation") in ALU. -/
inductive PyError where
  | indexError
  | typeError
  | keyError (k : Int)
  | unsupportedALU
deriving DecidableEq

/-- Python list-index resolution for a list of length n: an index i is valid
when -n <= i < n, negative indices counting from the end; otherwise the
access raises IndexError (modelled by none). -/
def pyIdx (n : Nat) (i : Int) : Option (Fin n) :=
  if h : 0 ≤ i ∧ i < (n : Int) then
    some ⟨i.toNat, by omega⟩
  else if h2 : 0 ≤ i + (n : Int) ∧ i < 0 then
    some ⟨(i + (n : Int)).toNat, by omega⟩
  else none

/-- Read cell i of a Python list modelled as a total map, where the index
may itself be the still-unset operand slot None. -/
def pyGetF {n : Nat} (f : Fin n → Int) (i : Option Int) : Except PyError Int :=
  match i with
  | none => .error .typeError
  | some j =>
    match pyIdx n j with
    | some k => .ok (f k)
    | none => .error .indexError

/-- Write cell i of a Python list modelled as a total map. -/
def pySetF {n : Nat} (f : Fin n → Int) (i : Option Int) (v : Int) :
    Except PyError (Fin n → Int) :=
  match i with
  | none => .error .typeError
  | some j =>
    match pyIdx n j with
    | some k => .ok (Function.update f k v)
    | none => .error .indexError

/-- Python left shift on ints (shift amounts in cpu.py are the constants
2 and 3): multiplication by a power of two. -/
def pyShl (x : Int) (k : Nat) : Int := x * 2 ^ k

/-- Python right shift on ints: flooring division by a power of two. -/
def pyShr (x : Int) (k : Nat) : Int := Int.fdiv x (2 ^ k)

/-- Names of the four ALU operations, the keys of the math_operation dict. -/
inductive MathOp where
  | ADD
  | SUB
  | MUL
  | CMP
deriving DecidableEq

/-- Source dict math_operation: ADD = 0b10100000, SUB = 0b10100001,
MUL = 0b10100010, CMP = 0b10100111. -/
def math_operation : MathOp → Int
  | .ADD => 0b10100000
  | .SUB => 0b10100001
  | .MUL => 0b10100010
  | .CMP => 0b10100111

/-- Names of the ten dispatch-table instructions, the values of the
binary_operation dict (which the branch table self.instructions maps to the
corresponding methods). -/
inductive Instr where
  | hlt
  | ldi
  | prn
  | push
  | pop
  | call
  | ret
  | jmp
  | jeq
  | jne
deriving DecidableEq

/-- Source dict binary_operation, mapping opcode bytes to instruction names;
a lookup miss raises KeyError in run. -/
def binary_operation (k : Int) : Option Instr :=
  if k = 0b00000001 then some .hlt
  else if k = 0b10000010 then some .ldi
  else if k = 0b01000111 then some .prn
  else if k = 0b01000101 then some .push
  else if k = 0b01000110 then some .pop
  else if k = 0b01010000 then some .call
  else if k = 0b00010001 then some .ret
  else if k = 0b01010100 then some .jmp
  else if k = 0b01010101 then some .jeq
  else if k = 0b01010110 then some .jne
  else none

/-- Module constant SP = 7, the register reserved as the stack pointer. -/
def SP : Fin 8 := 7

/-- Machine state of the CPU class: ram (256 cells), reg (8 cells),
operand slots, program counter PC, diagnostic registers MAR and MDR, flags
byte FL, plus the sequence of integers printed so far (the output channel:
PRINT emits a register value, the CMP branch of ALU emits the flags). -/
structure CPUState where
  ram : Fin 256 → Int
  reg : Fin 8 → Int
  operand_a : Option Int
  operand_b : Option Int
  PC : Int
  MAR : Option Int
  MDR : Option Int
  FL : Int
  output : List Int

/-- Initial state built by CPU.__init__: zeroed ram and registers except
reg[SP] = 0xF4 = 244, operands None, PC 0, MAR and MDR None, FL 0. -/
def initState : CPUState where
  ram := fun _ => 0
  reg := fun i => if i = SP then 244 else 0
  operand_a := none
  operand_b := none
  PC := 0
  MAR := none
  MDR := none
  FL := 0
  output := []

/-- Method ram_read: sets MAR to the address and MDR to the stored value and
returns that value; an out-of-range address raises IndexError. -/
def ram_read (s : CPUState) (address : Int) : Except PyError (Int × CPUState) :=
  match pyIdx 256 address with
  | some k => .ok (s.ram k, { s with MAR := some address, MDR := some (s.ram k) })
  | none => .error .indexError

/-- Method ram_write: sets MAR and MDR and stores the value at the address. -/
def ram_write (s : CPUState) (value : Int) (address : Int) :
    Except PyError CPUState :=
  match pyIdx 256 address with
  | some k =>
    .ok { s with MAR := some address, MDR := some value,
                 ram := Function.update s.ram k value }
  | none => .error .indexError

/-- Method CALL: decrement reg[SP]; store PC + 2 at the new reg[SP] address;
set PC to the value of the register named by operand_a (read after the
stack-pointer decrement, as in the source order of statements). -/
def CALL (s : CPUState) : Except PyError CPUState := do
  let s1 : CPUState := { s with reg := Function.update s.reg SP (s.reg SP - 1) }
  let ram1 ← pySetF s1.ram (some (s1.reg SP)) (s1.PC + 2)
  let s2 : CPUState := { s1 with ram := ram1 }
  let v ← pyGetF s2.reg s2.operand_a
  return { s2 with PC := v }

/-- Method RET: set PC to the memory cell at reg[SP], then increment
reg[SP]. -/
def RET (s : CPUState) : Except PyError CPUState := do
  let v ← pyGetF s.ram (some (s.reg SP))
  return { s with PC := v, reg := Function.update s.reg SP (s.reg SP + 1) }

/-- Method JMP: set PC to the value of the register named by operand_a. -/
def JMP (s : CPUState) : Except PyError CPUState := do
  let address ← pyGetF s.reg s.operand_a
  return { s with PC := address }

/-- Method JEQ: read the target register; if FL equals exactly 1, set PC to
it, otherwise add 2 to PC. -/
def JEQ (s : CPUState) : Except PyError CPUState := do
  let address ← pyGetF s.reg s.operand_a
  if s.FL = 1 then
    return { s with PC := address }
  else
    return { s with PC := s.PC + 2 }

/-- Method JNE: read the target register; if FL equals exactly 0, set PC to
it, otherwise add 2 to PC. -/
def JNE (s : CPUState) : Except PyError CPUState := do
  let address ← pyGetF s.reg s.operand_a
  if s.FL = 0 then
    return { s with PC := address }
  else
    return { s with PC := s.PC + 2 }

/-- Resolve an operand slot that Python would use as a plain int; None (an
operand never yet fetched) surfaces as a TypeError at first use. -/
def getOperand (i : Option Int) : Except PyError Int :=
  match i with
  | none => .error .typeError
  | some v => .ok v

/-- Method LOAD (opcode name LDI): store operand_b into the register named
by operand_a. -/
def LOAD (s : CPUState) : Except PyError CPUState := do
  let b ← getOperand s.operand_b
  let r ← pySetF s.reg s.operand_a b
  return { s with reg := r }

/-- Method PRINT (opcode name PRN): emit the value of the register named by
operand_a to the output channel. -/
def PRINT (s : CPUState) : Except PyError CPUState := do
  let v ← pyGetF s.reg s.operand_a
  return { s with output := s.output ++ [v] }

/-- Method PUSH: decrement reg[SP]; copy the value of the register named by
operand_a (read after the decrement, per the source order) to memory at the
new reg[SP]. -/
def PUSH (s : CPUState) : Except PyError CPUState := do
  let s1 : CPUState := { s with reg := Function.update s.reg SP (s.reg SP - 1) }
  let value ← pyGetF s1.reg s1.operand_a
  let ram1 ← pySetF s1.ram (some (s1.reg SP)) value
  return { s1 with ram := ram1 }

/-- Method POP: copy the memory cell at reg[SP] into the register named by
operand_a, then increment reg[SP] (reading reg[SP] after the first write,
per the source order of statements). -/
def POP (s : CPUState) : Except PyError CPUState := do
  let value ← pyGetF s.ram (some (s.reg SP))
  let r ← pySetF s.reg s.operand_a value
  return { s with reg := Function.update r SP (r SP + 1) }

/-- Method ALU: dispatch on op against the math_operation dict values.
ADD, SUB, MUL combine two registers with plain Python int arithmetic (no
8-bit masking appears in the source).  CMP compares the registers named by
the operand slots (the sole call site passes those same slots as reg_a and
reg_b), assigns FL by three independent if statements, and prints the new
FL.  Any other op raises Exception("Unsupported ALU operation"). -/
def ALU (s : CPUState) (op : Int) (reg_a reg_b : Option Int) :
    Except PyError CPUState :=
  if op = math_operation .ADD then do
    let va ← pyGetF s.reg reg_a
    let vb ← pyGetF s.reg reg_b
    let r ← pySetF s.reg reg_a (va + vb)
    return { s with reg := r }
  else if op = math_operation .SUB then do
    let va ← pyGetF s.reg reg_a
    let vb ← pyGetF s.reg reg_b
    let r ← pySetF s.reg reg_a (va - vb)
    return { s with reg := r }
  else if op = math_operation .MUL then do
    let va ← pyGetF s.reg reg_a
    let vb ← pyGetF s.reg reg_b
    let r ← pySetF s.reg reg_a (va * vb)
    return { s with reg := r }
  else if op = math_operation .CMP then do
    let valueA ← pyGetF s.reg s.operand_a
    let valueB ← pyGetF s.reg s.operand_b
    let fl1 : Int := if valueA = valueB then 1 else s.FL
    let fl2 : Int := if valueA < valueB then 4 else fl1
    let fl3 : Int := if valueA > valueB then 2 else fl2
    return { s with FL := fl3, output := s.output ++ [fl3] }
  else
    .error .unsupportedALU

/-- Expression (IR << 3) % 255 >> 7 from move_PC, the test meant to detect
the PC-setting flag (bit 4) of an opcode. -/
def pcFlagTest (IR : Int) : Int := pyShr (pyShl IR 3 % 255) 7

/-- Expression (IR << 2) % 255 >> 7 from run, the test meant to detect the
ALU flag (bit 5) of an opcode. -/
def aluFlagTest (IR : Int) : Int := pyShr (pyShl IR 2 % 255) 7

/-- Method move_PC: unless the pcFlagTest fires, advance PC by
(IR >> 6) + 1, one plus the operand count encoded in bits 7 and 6. -/
def move_PC (s : CPUState) (IR : Int) : CPUState :=
  if pcFlagTest IR ≠ 1 then { s with PC := s.PC + (pyShr IR 6 + 1) } else s

/-- Result of one iteration of the while loop in run: continue with a new
state; stop cleanly (the HALT method calls sys.exit()); stop at the
unrecognized-opcode report branch, which prints the opcode and the trace and
exits with status 1; or abort on an uncaught Python exception. -/
inductive Outcome where
  | running (s : CPUState)
  | halted
  | fatalReport (IR : Int) (s : CPUState)
  | err (e : PyError)

/-- Execute phase of one loop iteration of run, after IR and the operand
slots have been fetched: route to ALU when aluFlagTest yields 1, to the
branch table via binary_operation when it yields 0 (a lookup miss raises
KeyError), and to the report-and-exit branch otherwise; after a normal
instruction, move_PC runs.  The HLT entry calls HALT, whose sys.exit()
stops the loop before move_PC. -/
def stepExec (IR : Int) (s : CPUState) : Outcome :=
  let after : Except PyError CPUState → Outcome := fun r =>
    match r with
    | .ok s1 => .running (move_PC s1 IR)
    | .error e => .err e
  if aluFlagTest IR = 1 then
    after (ALU s IR s.operand_a s.operand_b)
  else if aluFlagTest IR = 0 then
    match binary_operation IR with
    | some .hlt => .halted
    | some .ldi => after (LOAD s)
    | some .prn => after (PRINT s)
    | some .push => after (PUSH s)
    | some .pop => after (POP s)
    | some .call => after (CALL s)
    | some .ret => after (RET s)
    | some .jmp => after (JMP s)
    | some .jeq => after (JEQ s)
    | some .jne => after (JNE s)
    | none => .err (.keyError IR)
  else
    .fatalReport IR s

/-- Fetch phase of one loop iteration of run: ram_read at PC, PC + 1 and
PC + 2 unconditionally, filling IR and both operand slots. -/
def fetch (s : CPUState) : Except PyError (Int × CPUState) := do
  let (IR, s1) ← ram_read s s.PC
  let (opa, s2) ← ram_read s1 (s1.PC + 1)
  let (opb, s3) ← ram_read s2 (s2.PC + 2)
  return (IR, { s3 with operand_a := some opa, operand_b := some opb })

/-- One full iteration of the while loop in run. -/
def step (s : CPUState) : Outcome :=
  match fetch s with
  | .ok (IR, s3) => stepExec IR s3
  | .error e => .err e

/-- Method run, fuelled: iterate step while it keeps running.  Exhausted
fuel returns the current running state. -/
def run : Nat → CPUState → Outcome
  | 0, s => .running s
  | Nat.succ n, s =>
    match step s with
    | .running s1 => run n s1
    | o => o

/-- Demonstration state: flags as CMP leaves them after finding less-than
(FL = 4, Equal bit clear), register 0 holding the jump target 100,
operand_a selecting register 0, PC at 0. -/
def jneCex : CPUState :=
  { initState with FL := 4, operand_a := some 0,
                   reg := Function.update initState.reg 0 100 }

/-- Demonstration state for the conditional jumps: operand_a selects
register 3. -/
def jumpDemo : CPUState := { initState with operand_a := some 3 }

/-- Demonstration state: register 0 holds 255 and register 1 holds 1. -/
def addCex : CPUState :=
  { initState with
    reg := Function.update (Function.update initState.reg 0 255) 1 1 }

/-- Demonstration state for CALL and RET: operand_a selects register 2,
which holds the subroutine address 99. -/
def callDemo : CPUState :=
  { initState with operand_a := some 2,
                   reg := Function.update initState.reg 2 99 }

/-- Demonstration state for PUSH and POP: operand_a selects register 4,
which holds 55. -/
def pushDemo : CPUState :=
  { initState with operand_a := some 4,
                   reg := Function.update initState.reg 4 55 }

/-- Demonstration state for CMP: the operand slots select registers 0 and
1, holding 5 and 9, with stale flags FL = 2 left by an earlier compare. -/
def cmpDemo : CPUState :=
  { initState with operand_a := some 0, operand_b := some 1, FL := 2,
                   reg := Function.update (Function.update initState.reg 0 5) 1 9 }

/-- Demonstration state for the CMP output effect: the operand slots select
registers 0 and 1, both holding 0. -/
def cmpEqDemo : CPUState :=
  { initState with operand_a := some 0, operand_b := some 1 }

/-- State produced by the CMP branch of ALU on cmpEqDemo: equal register
values set FL to 1 and the new FL is printed. -/
def cmpEqResult : CPUState :=
  { cmpEqDemo with FL := 1, output := cmpEqDemo.output ++ [1] }

/-- Demonstration state with PC at 254, two bytes before the end of
memory. -/
def fetchDemo : CPUState := { initState with PC := 254 }

end LS8

namespace LS8

/-- Index resolution lemma: an integer equal to the value of a valid index
resolves to that index. -/
theorem pyIdx_coe (n : Nat) (i : Int) (k : Fin n) (hk : (k.val : Int) = i) :
    pyIdx n i = some k := by
  have hlt := k.isLt
  unfold pyIdx
  rw [dif_pos ⟨by omega, by omega⟩]
  refine congrArg some (Fin.ext ?_)
  show i.toNat = k.val
  omega

/-- Index resolution lemma: an integer at or above the length raises
IndexError. -/
theorem pyIdx_high (n : Nat) (i : Int) (h : (n : Int) ≤ i) : pyIdx n i = none := by
  unfold pyIdx
  rw [dif_neg (by omega), dif_neg (by omega)]

/-- Reading through a resolved index returns the stored value. -/
theorem pyGetF_coe {n : Nat} (f : Fin n → Int) (i : Int) (k : Fin n)
    (hk : pyIdx n i = some k) : pyGetF f (some i) = .ok (f k) := by
  simp [pyGetF, hk]

/-- Writing through a resolved index updates the map at that index. -/
theorem pySetF_coe {n : Nat} (f : Fin n → Int) (i : Int) (k : Fin n) (v : Int)
    (hk : pyIdx n i = some k) :
    pySetF f (some i) v = .ok (Function.update f k v) := by
  simp [pySetF, hk]

/-- Reading ram through a resolved address returns the cell and records the
address in MAR. -/
theorem ram_read_coe (s : CPUState) (a : Int) (k : Fin 256)
    (hk : pyIdx 256 a = some k) :
    ram_read s a = .ok (s.ram k, { s with MAR := some a, MDR := some (s.ram k) }) := by
  simp [ram_read, hk]

/-- Claim C1: the spec requires an unrecognized opcode byte (no dispatch
table entry, not ALU-flagged) to reach the fatal-error reporting branch.
The code instead raises an uncaught KeyError from the dict lookup
binary_operation[IR], because the routing expression (IR << 2) % 255 >> 7
only ever yields 0 or 1, so the reporting branch is unreachable.  At the
concrete failing input, opcode 0 at PC 0 in zero-filled memory, one cycle
aborts with KeyError and produces no report. -/
theorem step_keyError_at_zero :
    step initState = Outcome.err (PyError.keyError 0) := rfl

/-- Claim C4 counterexample: at opcode byte 255 the modulo-255 routing
expression yields 0 although bit 5 of 255 is set, and the move_PC
suppression expression yields 0 although bit 4 of 255 is set, so the two
expressions do not agree with exact bitfield extraction on all 256 byte
values. -/
theorem modulo255_extraction_cex :
    aluFlagTest 255 = 0 ∧ Nat.testBit 255 5 = true ∧
    pcFlagTest 255 = 0 ∧ Nat.testBit 255 4 = true := by
  decide

/-- Claim C4 (amended): for every opcode byte in [0, 254] the routing
expression (IR << 2) % 255 >> 7 equals bit 5 of the opcode and the move_PC
suppression expression (IR << 3) % 255 >> 7 equals bit 4; the agreement
fails exactly at byte 255. -/
theorem modulo255_extraction_below_255 :
    ∀ n : Nat, n < 255 →
      (aluFlagTest ((n : Nat) : Int) = if Nat.testBit n 5 then 1 else 0) ∧
      (pcFlagTest ((n : Nat) : Int) = if Nat.testBit n 4 then 1 else 0) := by
  decide

/-- Concrete instance of the amended bitfield agreement at opcode 170. -/
theorem modulo255_extraction_below_255_witness :
    (aluFlagTest ((170 : Nat) : Int) = if Nat.testBit 170 5 then 1 else 0) ∧
    (pcFlagTest ((170 : Nat) : Int) = if Nat.testBit 170 4 then 1 else 0) :=
  modulo255_extraction_below_255 170 (by decide)

end LS8

namespace LS8

/-- Claim C2 counterexample: in state jneCex the flags byte is 4
(Less-than), so the Equal bit (bit 0) is clear and the claim requires JNE
to jump to reg[0] = 100; the code instead tests the whole flags byte
against 0, does not jump, and advances PC from 0 to 2. -/
theorem jne_flag_counterexample :
    jneCex.FL % 2 = 0 ∧ jneCex.reg 0 = 100 ∧ jneCex.PC = 0 ∧
    JNE jneCex = .ok { jneCex with PC := 2 } ∧ ((2 : Int) ≠ 100) :=
  ⟨rfl, rfl, rfl, rfl, by decide⟩

/-- Claim C2 (amended): with a fetched operand_a naming register k, JEQ
sets PC to reg[k] exactly when FL equals 1 (for the flag states CMP can
produce this coincides with the Equal bit) and otherwise adds 2, while JNE
sets PC to reg[k] exactly when FL equals 0 — so JNE refuses to jump when
Less-than or Greater-than is set even though Equal is clear — and
otherwise adds 2; move_PC adds nothing after either opcode (their bit-4
test fires), so the non-jumping advance is exactly the operand-derived
width 2. -/
theorem jeq_jne_exact_flag_behavior (s : CPUState) (a : Int) (k : Fin 8)
    (hop : s.operand_a = some a) (hk : pyIdx 8 a = some k) :
    JEQ s = .ok { s with PC := if s.FL = 1 then s.reg k else s.PC + 2 } ∧
    JNE s = .ok { s with PC := if s.FL = 0 then s.reg k else s.PC + 2 } ∧
    move_PC s 0b01010101 = s ∧ move_PC s 0b01010110 = s := by
  refine ⟨?_, ?_, ?_, ?_⟩
  · unfold JEQ
    rw [hop, pyGetF_coe s.reg a k hk]
    rcases eq_or_ne s.FL 1 with h | h
    · simp only [if_pos h]; rfl
    · simp only [if_neg h]; rfl
  · unfold JNE
    rw [hop, pyGetF_coe s.reg a k hk]
    rcases eq_or_ne s.FL 0 with h | h
    · simp only [if_pos h]; rfl
    · simp only [if_neg h]; rfl
  · unfold move_PC
    rw [if_neg (by decide : ¬ pcFlagTest 0b01010101 ≠ 1)]
  · unfold move_PC
    rw [if_neg (by decide : ¬ pcFlagTest 0b01010110 ≠ 1)]

/-- Concrete instance of the amended conditional-jump behaviour on
jumpDemo. -/
theorem jeq_jne_exact_flag_behavior_witness :
    JEQ jumpDemo =
      .ok { jumpDemo with
            PC := if jumpDemo.FL = 1 then jumpDemo.reg 3 else jumpDemo.PC + 2 } ∧
    JNE jumpDemo =
      .ok { jumpDemo with
            PC := if jumpDemo.FL = 0 then jumpDemo.reg 3 else jumpDemo.PC + 2 } ∧
    move_PC jumpDemo 0b01010101 = jumpDemo ∧
    move_PC jumpDemo 0b01010110 = jumpDemo :=
  jeq_jne_exact_flag_behavior jumpDemo 3 3 rfl rfl

/-- Claim C3 counterexample: with register 0 holding 255 and register 1
holding 1, the ALU ADD stores 256 in register 0 — the exact sum, not the
8-bit wrapped value 0 the claim requires. -/
theorem add_no_wrap_counterexample :
    addCex.reg 0 = 255 ∧ addCex.reg 1 = 1 ∧
    ALU addCex (math_operation .ADD) (some 0) (some 1) =
      .ok { addCex with reg := Function.update addCex.reg 0 256 } ∧
    ((256 : Int) ≠ 0) :=
  ⟨rfl, rfl, rfl, by decide⟩

/-- Claim C3 (amended): the ALU operations ADD, SUB and MUL leave the
destination register holding the exact unbounded integer result of the
Python arithmetic, with no reduction modulo 256; in particular ADD on
registers holding 255 and 1 leaves 256, not 0. -/
theorem alu_exact_arithmetic (s : CPUState) (a b : Int) (ka kb : Fin 8)
    (hka : pyIdx 8 a = some ka) (hkb : pyIdx 8 b = some kb) :
    ALU s (math_operation .ADD) (some a) (some b) =
      .ok { s with reg := Function.update s.reg ka (s.reg ka + s.reg kb) } ∧
    ALU s (math_operation .SUB) (some a) (some b) =
      .ok { s with reg := Function.update s.reg ka (s.reg ka - s.reg kb) } ∧
    ALU s (math_operation .MUL) (some a) (some b) =
      .ok { s with reg := Function.update s.reg ka (s.reg ka * s.reg kb) } := by
  have e1 := pyGetF_coe s.reg a ka hka
  have e2 := pyGetF_coe s.reg b kb hkb
  refine ⟨?_, ?_, ?_⟩
  · unfold ALU
    rw [if_pos rfl]
    simp only [e1, e2, pySetF_coe s.reg a ka _ hka, Bind.bind, Except.bind,
      pure, Except.pure]
  · unfold ALU
    rw [if_neg (by decide : math_operation .SUB ≠ math_operation .ADD),
        if_pos rfl]
    simp only [e1, e2, pySetF_coe s.reg a ka _ hka, Bind.bind, Except.bind,
      pure, Except.pure]
  · unfold ALU
    rw [if_neg (by decide : math_operation .MUL ≠ math_operation .ADD),
        if_neg (by decide : math_operation .MUL ≠ math_operation .SUB),
        if_pos rfl]
    simp only [e1, e2, pySetF_coe s.reg a ka _ hka, Bind.bind, Except.bind,
      pure, Except.pure]

/-- Concrete instance of the exact-arithmetic behaviour on addCex. -/
theorem alu_exact_arithmetic_witness :
    ALU addCex (math_operation .ADD) (some 0) (some 1) =
      .ok { addCex with
            reg := Function.update addCex.reg 0 (addCex.reg 0 + addCex.reg 1) } ∧
    ALU addCex (math_operation .SUB) (some 0) (some 1) =
      .ok { addCex with
            reg := Function.update addCex.reg 0 (addCex.reg 0 - addCex.reg 1) } ∧
    ALU addCex (math_operation .MUL) (some 0) (some 1) =
      .ok { addCex with
            reg := Function.update addCex.reg 0 (addCex.reg 0 * addCex.reg 1) } :=
  alu_exact_arithmetic addCex 0 1 0 1 rfl rfl

end LS8

namespace LS8

/-- Claim C7: for any two register values, the CMP branch of ALU leaves the
flags byte equal to exactly one of 1 (Equal), 4 (Less-than) or 2
(Greater-than), chosen by the comparison alone — the previous flags byte is
fully overwritten, since the result does not depend on it. -/
theorem CMP_one_hot (s : CPUState) (a b : Int) (ka kb : Fin 8)
    (ra rb : Option Int)
    (hopa : s.operand_a = some a) (hopb : s.operand_b = some b)
    (hka : pyIdx 8 a = some ka) (hkb : pyIdx 8 b = some kb) :
    ∃ fl : Int,
      ALU s (math_operation .CMP) ra rb =
        .ok { s with FL := fl, output := s.output ++ [fl] } ∧
      (fl = 1 ∨ fl = 2 ∨ fl = 4) ∧
      (fl = 1 ↔ s.reg ka = s.reg kb) ∧
      (fl = 4 ↔ s.reg ka < s.reg kb) ∧
      (fl = 2 ↔ s.reg kb < s.reg ka) := by
  have e1 : pyGetF s.reg s.operand_a = .ok (s.reg ka) := by
    rw [hopa]; exact pyGetF_coe s.reg a ka hka
  have e2 : pyGetF s.reg s.operand_b = .ok (s.reg kb) := by
    rw [hopb]; exact pyGetF_coe s.reg b kb hkb
  rcases lt_trichotomy (s.reg ka) (s.reg kb) with h | h | h
  · refine ⟨4, ?_, by omega, ?_, ?_, ?_⟩
    · unfold ALU
      rw [if_neg (by decide : math_operation .CMP ≠ math_operation .ADD),
          if_neg (by decide : math_operation .CMP ≠ math_operation .SUB),
          if_neg (by decide : math_operation .CMP ≠ math_operation .MUL),
          if_pos rfl]
      simp only [e1, e2, Bind.bind, Except.bind, pure, Except.pure]
      split_ifs <;> first | rfl | (exfalso; omega)
    · exact ⟨fun h2 => by omega, fun h2 => by omega⟩
    · exact ⟨fun h2 => h, fun h2 => rfl⟩
    · exact ⟨fun h2 => by omega, fun h2 => by omega⟩
  · refine ⟨1, ?_, by omega, ?_, ?_, ?_⟩
    · unfold ALU
      rw [if_neg (by decide : math_operation .CMP ≠ math_operation .ADD),
          if_neg (by decide : math_operation .CMP ≠ math_operation .SUB),
          if_neg (by decide : math_operation .CMP ≠ math_operation .MUL),
          if_pos rfl]
      simp only [e1, e2, Bind.bind, Except.bind, pure, Except.pure]
      split_ifs <;> first | rfl | (exfalso; omega)
    · exact ⟨fun h2 => h, fun h2 => rfl⟩
    · exact ⟨fun h2 => by omega, fun h2 => by omega⟩
    · exact ⟨fun h2 => by omega, fun h2 => by omega⟩
  · refine ⟨2, ?_, by omega, ?_, ?_, ?_⟩
    · unfold ALU
      rw [if_neg (by decide : math_operation .CMP ≠ math_operation .ADD),
          if_neg (by decide : math_operation .CMP ≠ math_operation .SUB),
          if_neg (by decide : math_operation .CMP ≠ math_operation .MUL),
          if_pos rfl]
      simp only [e1, e2, Bind.bind, Except.bind, pure, Except.pure]
      split_ifs <;> first | rfl | (exfalso; omega)
    · exact ⟨fun h2 => by omega, fun h2 => by omega⟩
    · exact ⟨fun h2 => by omega, fun h2 => by omega⟩
    · exact ⟨fun h2 => h, fun h2 => rfl⟩

/-- Concrete instance of the CMP one-hot flags behaviour on cmpDemo, whose
stale flags byte 2 is overwritten. -/
theorem CMP_one_hot_witness :
    ∃ fl : Int,
      ALU cmpDemo (math_operation .CMP) none none =
        .ok { cmpDemo with FL := fl, output := cmpDemo.output ++ [fl] } ∧
      (fl = 1 ∨ fl = 2 ∨ fl = 4) ∧
      (fl = 1 ↔ cmpDemo.reg 0 = cmpDemo.reg 1) ∧
      (fl = 4 ↔ cmpDemo.reg 0 < cmpDemo.reg 1) ∧
      (fl = 2 ↔ cmpDemo.reg 1 < cmpDemo.reg 0) :=
  CMP_one_hot cmpDemo 0 1 0 1 none none rfl rfl rfl rfl

/-- Claim C10: whenever the CMP branch of ALU succeeds, the resulting
output channel is the previous output with the new flags value appended —
CMP prints the flags byte, so output is not produced by PRINT alone. -/
theorem CMP_emits_flags (s : CPUState) (ra rb : Option Int) (s2 : CPUState)
    (h : ALU s (math_operation .CMP) ra rb = .ok s2) :
    s2.output = s.output ++ [s2.FL] ∧
    s2.output.length = s.output.length + 1 := by
  unfold ALU at h
  rw [if_neg (by decide : math_operation .CMP ≠ math_operation .ADD),
      if_neg (by decide : math_operation .CMP ≠ math_operation .SUB),
      if_neg (by decide : math_operation .CMP ≠ math_operation .MUL),
      if_pos rfl] at h
  cases hva : pyGetF s.reg s.operand_a with
  | error e => rw [hva] at h; simp [Bind.bind, Except.bind] at h
  | ok va =>
    cases hvb : pyGetF s.reg s.operand_b with
    | error e =>
      simp only [hva, hvb, Bind.bind, Except.bind] at h
      exact Except.noConfusion h
    | ok vb =>
      simp only [hva, hvb, Bind.bind, Except.bind, pure, Except.pure,
        Except.ok.injEq] at h
      subst h
      exact ⟨rfl, by simp⟩

/-- Concrete instance of the CMP output effect on cmpEqDemo. -/
theorem CMP_emits_flags_witness :
    cmpEqResult.output = cmpEqDemo.output ++ [cmpEqResult.FL] ∧
    cmpEqResult.output.length = cmpEqDemo.output.length + 1 :=
  CMP_emits_flags cmpEqDemo none none cmpEqResult rfl

/-- Claim C8: an ALU-flagged opcode (bit 5 set) matching none of the four
math_operation values makes ALU raise the unsupported-operation exception,
and when the routing test sends such an opcode to the ALU the whole
execution step aborts with that error — it is never swallowed. -/
theorem unsupported_alu_aborts (op : Int) (h0 : 0 ≤ op) (h1 : op < 256)
    (hbit : Nat.testBit op.toNat 5 = true)
    (ha : op ≠ math_operation .ADD) (hs : op ≠ math_operation .SUB)
    (hm : op ≠ math_operation .MUL) (hc : op ≠ math_operation .CMP) :
    (∀ s : CPUState, ∀ ra rb : Option Int,
      ALU s op ra rb = .error .unsupportedALU) ∧
    (aluFlagTest op = 1 →
      ∀ s : CPUState, stepExec op s = .err .unsupportedALU) := by
  have halu : ∀ s : CPUState, ∀ ra rb : Option Int,
      ALU s op ra rb = .error .unsupportedALU := by
    intro s ra rb
    unfold ALU
    rw [if_neg ha, if_neg hs, if_neg hm, if_neg hc]
  refine ⟨halu, ?_⟩
  intro hroute s
  unfold stepExec
  rw [if_pos hroute, halu]

/-- Concrete instance of the unsupported ALU opcode 0b10100011 = 163
aborting both ALU and the execution step. -/
theorem unsupported_alu_aborts_witness :
    ALU initState 163 none none = .error .unsupportedALU ∧
    stepExec 163 initState = .err .unsupportedALU :=
  ⟨(unsupported_alu_aborts 163 (by decide) (by decide) (by decide)
      (by decide) (by decide) (by decide) (by decide)).1 initState none none,
   (unsupported_alu_aborts 163 (by decide) (by decide) (by decide)
      (by decide) (by decide) (by decide) (by decide)).2 (by decide) initState⟩

end LS8

namespace LS8

/-- Claim C5: CALL decrements the stack-pointer register, writes PC + 2
(the address after this CALL) to memory at the new stack-pointer address,
and sets PC to the value of the register named by operand_a (the register
file as it stands at that moment; for any register other than the stack
pointer itself this is its original value); RET immediately after restores
PC to that PC + 2 address and brings the stack pointer back to its value
before the pair. -/
theorem CALL_RET_round_trip (s : CPUState) (a : Int) (k : Fin 8)
    (hop : s.operand_a = some a) (hk : pyIdx 8 a = some k)
    (hlo : 0 ≤ s.reg SP - 1) (hhi : s.reg SP - 1 < 256) :
    ∃ s1 : CPUState, CALL s = .ok s1 ∧
      s1.reg SP = s.reg SP - 1 ∧
      pyGetF s1.ram (some (s1.reg SP)) = .ok (s.PC + 2) ∧
      s1.PC = s1.reg k ∧
      (k ≠ SP → s1.PC = s.reg k) ∧
      ∃ s2 : CPUState, RET s1 = .ok s2 ∧ s2.PC = s.PC + 2 ∧
        s2.reg SP = s.reg SP := by
  obtain ⟨j, hjv⟩ : ∃ j : Fin 256, (j.val : Int) = s.reg SP - 1 :=
    ⟨⟨(s.reg SP - 1).toNat, by omega⟩, Int.toNat_of_nonneg hlo⟩
  have hidx : pyIdx 256 (s.reg SP - 1) = some j := pyIdx_coe 256 _ j hjv
  refine ⟨{ s with reg := Function.update s.reg SP (s.reg SP - 1),
                   ram := Function.update s.ram j (s.PC + 2),
                   PC := Function.update s.reg SP (s.reg SP - 1) k },
          ?_, ?_, ?_, rfl, ?_, ?_⟩
  · unfold CALL
    simp only [hop, Function.update_same,
      pySetF_coe s.ram (s.reg SP - 1) j (s.PC + 2) hidx,
      pyGetF_coe (Function.update s.reg SP (s.reg SP - 1)) a k hk,
      Bind.bind, Except.bind, pure, Except.pure]
  · simp only [Function.update_same]
  · simp only [Function.update_same,
      pyGetF_coe (Function.update s.ram j (s.PC + 2)) (s.reg SP - 1) j hidx]
  · intro hne
    exact Function.update_noteq hne _ _
  · refine ⟨{ s with
        ram := Function.update s.ram j (s.PC + 2),
        PC := s.PC + 2,
        reg := Function.update (Function.update s.reg SP (s.reg SP - 1)) SP
          (s.reg SP - 1 + 1) }, ?_, rfl, ?_⟩
    · unfold RET
      simp only [Function.update_same,
        pyGetF_coe (Function.update s.ram j (s.PC + 2)) (s.reg SP - 1) j hidx,
        Bind.bind, Except.bind, pure, Except.pure]
    · simp only [Function.update_same]
      omega

/-- Concrete instance of the CALL and RET round trip on callDemo. -/
theorem CALL_RET_round_trip_witness :
    ∃ s1 : CPUState, CALL callDemo = .ok s1 ∧
      s1.reg SP = callDemo.reg SP - 1 ∧
      pyGetF s1.ram (some (s1.reg SP)) = .ok (callDemo.PC + 2) ∧
      s1.PC = s1.reg 2 ∧
      ((2 : Fin 8) ≠ SP → s1.PC = callDemo.reg 2) ∧
      ∃ s2 : CPUState, RET s1 = .ok s2 ∧ s2.PC = callDemo.PC + 2 ∧
        s2.reg SP = callDemo.reg SP :=
  CALL_RET_round_trip callDemo 2 2 rfl rfl (by decide) (by decide)

/-- Claim C6: with the new stack address in bounds, PUSH on the register
named by operand_a followed immediately by POP on the same register leaves
that register holding its original value and the stack-pointer register at
its original value (this includes the degenerate case where the operand
names the stack-pointer register itself). -/
theorem PUSH_POP_round_trip (s : CPUState) (r : Int) (k : Fin 8)
    (hop : s.operand_a = some r) (hk : pyIdx 8 r = some k)
    (hlo : 0 ≤ s.reg SP - 1) (hhi : s.reg SP - 1 < 256) :
    ∃ s1 s2 : CPUState, PUSH s = .ok s1 ∧ POP s1 = .ok s2 ∧
      s2.reg k = s.reg k ∧ s2.reg SP = s.reg SP := by
  obtain ⟨j, hjv⟩ : ∃ j : Fin 256, (j.val : Int) = s.reg SP - 1 :=
    ⟨⟨(s.reg SP - 1).toNat, by omega⟩, Int.toNat_of_nonneg hlo⟩
  have hidx : pyIdx 256 (s.reg SP - 1) = some j := pyIdx_coe 256 _ j hjv
  refine ⟨{ s with reg := Function.update s.reg SP (s.reg SP - 1),
                   ram := Function.update s.ram j
                     (Function.update s.reg SP (s.reg SP - 1) k) },
          { s with
            ram := Function.update s.ram j
              (Function.update s.reg SP (s.reg SP - 1) k),
            reg := Function.update
              (Function.update (Function.update s.reg SP (s.reg SP - 1)) k
                (Function.update s.reg SP (s.reg SP - 1) k)) SP
              (Function.update (Function.update s.reg SP (s.reg SP - 1)) k
                (Function.update s.reg SP (s.reg SP - 1) k) SP + 1) },
          ?_, ?_, ?_, ?_⟩
  · unfold PUSH
    simp only [hop, Function.update_same,
      pyGetF_coe (Function.update s.reg SP (s.reg SP - 1)) r k hk,
      pySetF_coe s.ram (s.reg SP - 1) j
        (Function.update s.reg SP (s.reg SP - 1) k) hidx,
      Bind.bind, Except.bind, pure, Except.pure]
  · unfold POP
    simp only [hop, Function.update_same,
      pyGetF_coe (Function.update s.ram j
        (Function.update s.reg SP (s.reg SP - 1) k)) (s.reg SP - 1) j hidx,
      pySetF_coe (Function.update s.reg SP (s.reg SP - 1)) r k
        (Function.update s.reg SP (s.reg SP - 1) k) hk,
      Bind.bind, Except.bind, pure, Except.pure]
  · by_cases hks : k = SP
    · subst hks
      simp only [Function.update_same]
      omega
    · simp only [Function.update_noteq hks, Function.update_same]
  · by_cases hks : k = SP
    · subst hks
      simp only [Function.update_same]
      omega
    · simp only [Function.update_same, Function.update_noteq (Ne.symm hks)]
      omega

/-- Concrete instance of the PUSH and POP round trip on pushDemo. -/
theorem PUSH_POP_round_trip_witness :
    ∃ s1 s2 : CPUState, PUSH pushDemo = .ok s1 ∧ POP s1 = .ok s2 ∧
      s2.reg 4 = pushDemo.reg 4 ∧ s2.reg SP = pushDemo.reg SP :=
  PUSH_POP_round_trip pushDemo 4 4 rfl rfl (by decide) (by decide)

/-- Claim C9: one cycle of run reads memory at PC, PC + 1 and PC + 2
unconditionally, whatever the operand count of the opcode: for a machine
address PC at most 253 the fetch succeeds, fills the operand slots from
PC + 1 and PC + 2 and leaves MAR at PC + 2, while a cycle starting at
PC = 254 or PC = 255 aborts with IndexError at fetch time — the address is
neither wrapped nor clamped. -/
theorem fetch_window (s : CPUState) (h0 : 0 ≤ s.PC) (h1 : s.PC < 256) :
    (s.PC ≤ 253 →
      ∃ k0 k1 k2 : Fin 256,
        (k0.val : Int) = s.PC ∧ (k1.val : Int) = s.PC + 1 ∧
        (k2.val : Int) = s.PC + 2 ∧
        fetch s = .ok (s.ram k0,
          { s with MAR := some (s.PC + 2), MDR := some (s.ram k2),
                   operand_a := some (s.ram k1),
                   operand_b := some (s.ram k2) })) ∧
    (253 < s.PC →
      fetch s = .error .indexError ∧ step s = .err .indexError) := by
  constructor
  · intro hle
    obtain ⟨k0, hk0⟩ : ∃ t : Fin 256, (t.val : Int) = s.PC :=
      ⟨⟨s.PC.toNat, by omega⟩, Int.toNat_of_nonneg h0⟩
    obtain ⟨k1, hk1⟩ : ∃ t : Fin 256, (t.val : Int) = s.PC + 1 :=
      ⟨⟨(s.PC + 1).toNat, by omega⟩, Int.toNat_of_nonneg (by omega)⟩
    obtain ⟨k2, hk2⟩ : ∃ t : Fin 256, (t.val : Int) = s.PC + 2 :=
      ⟨⟨(s.PC + 2).toNat, by omega⟩, Int.toNat_of_nonneg (by omega)⟩
    have i0 : pyIdx 256 s.PC = some k0 := pyIdx_coe 256 _ k0 hk0
    have i1 : pyIdx 256 (s.PC + 1) = some k1 := pyIdx_coe 256 _ k1 hk1
    have i2 : pyIdx 256 (s.PC + 2) = some k2 := pyIdx_coe 256 _ k2 hk2
    refine ⟨k0, k1, k2, hk0, hk1, hk2, ?_⟩
    simp only [fetch, ram_read, i0, i1, i2, Bind.bind, Except.bind, pure,
      Except.pure]
  · intro hgt
    rcases (by omega : s.PC = 254 ∨ s.PC = 255) with h | h
    · obtain ⟨k0, hk0⟩ : ∃ t : Fin 256, (t.val : Int) = s.PC :=
        ⟨⟨s.PC.toNat, by omega⟩, Int.toNat_of_nonneg h0⟩
      obtain ⟨k1, hk1⟩ : ∃ t : Fin 256, (t.val : Int) = s.PC + 1 :=
        ⟨⟨(s.PC + 1).toNat, by omega⟩, Int.toNat_of_nonneg (by omega)⟩
      have i0 : pyIdx 256 s.PC = some k0 := pyIdx_coe 256 _ k0 hk0
      have i1 : pyIdx 256 (s.PC + 1) = some k1 := pyIdx_coe 256 _ k1 hk1
      have i2n : pyIdx 256 (s.PC + 2) = none := pyIdx_high 256 _ (by omega)
      constructor
      · simp only [fetch, ram_read, i0, i1, i2n, Bind.bind, Except.bind]
      · simp only [step, fetch, ram_read, i0, i1, i2n, Bind.bind, Except.bind]
    · obtain ⟨k0, hk0⟩ : ∃ t : Fin 256, (t.val : Int) = s.PC :=
        ⟨⟨s.PC.toNat, by omega⟩, Int.toNat_of_nonneg h0⟩
      have i0 : pyIdx 256 s.PC = some k0 := pyIdx_coe 256 _ k0 hk0
      have i1n : pyIdx 256 (s.PC + 1) = none := pyIdx_high 256 _ (by omega)
      constructor
      · simp only [fetch, ram_read, i0, i1n, Bind.bind, Except.bind]
      · simp only [step, fetch, ram_read, i0, i1n, Bind.bind, Except.bind]

/-- Concrete instance of the fetch window at PC = 254: the cycle aborts
with IndexError. -/
theorem fetch_window_witness :
    (fetchDemo.PC ≤ 253 →
      ∃ k0 k1 k2 : Fin 256,
        (k0.val : Int) = fetchDemo.PC ∧ (k1.val : Int) = fetchDemo.PC + 1 ∧
        (k2.val : Int) = fetchDemo.PC + 2 ∧
        fetch fetchDemo = .ok (fetchDemo.ram k0,
          { fetchDemo with
            MAR := some (fetchDemo.PC + 2), MDR := some (fetchDemo.ram k2),
            operand_a := some (fetchDemo.ram k1),
            operand_b := some (fetchDemo.ram k2) })) ∧
    (253 < fetchDemo.PC →
      fetch fetchDemo = .error .indexError ∧
      step fetchDemo = .err .indexError) :=
  fetch_window fetchDemo (by decide) (by decide)

end LS8
